import Mathlib

/-!
Verification development for the KuberDock CLI pod-draft assembler and
egress reconciler (kubecli/container/container.py).

The Python code is shallowly embedded: dictionaries holding the pod draft
become Lean structures (a possibly-missing key becomes an Option field),
Python string manipulation is reimplemented over lists of characters with
Python semantics (split keeps empty fields, strip removes surrounding
whitespace, truthiness of a string means presence and non-emptiness), and
code paths ending in SystemExit become Except values.
-/

/-! ## Python-style string utilities -/

/-- Python str.strip: drop whitespace from both ends. -/
def pyStrip (s : String) : String :=
  String.mk (((s.data.dropWhile Char.isWhitespace).reverse.dropWhile
    Char.isWhitespace).reverse)

/-- Python str.split(sep) for a one-character separator: splits on every
occurrence and keeps empty fields, so splitting the empty string yields
one empty field. -/
def splitOnChar (sep : Char) : List Char → List (List Char)
  | [] => [[]]
  | c :: cs =>
    match splitOnChar sep cs with
    | [] => [[]]
    | t :: ts => if c = sep then [] :: t :: ts else (c :: t) :: ts

/-- Python s.split(sep) wrapper on String. -/
def pySplit (s : String) (sep : Char) : List String :=
  (splitOnChar sep s.data).map String.mk

/-- Python truthiness of an optional string value: present and non-empty. -/
def truthyStr (o : Option String) : Bool :=
  match o with
  | none => false
  | some s => s ≠ ""

/-- Value of a decimal digit string, as Python int() on a digit-only string. -/
def digitsToNat (ds : List Char) : Nat :=
  ds.foldl (fun acc c => 10 * acc + (c.toNat - 48)) 0

/-! ## Data model (draft document dictionaries) -/

/-- One entry of a container's env list: a dict with name and value keys. -/
structure EnvVar where
  name : String
  value : String
deriving DecidableEq

/-- A volumeMounts entry; either key may be missing from the dict. -/
structure VolumeMount where
  mountPath : Option String
  name : Option String
deriving DecidableEq

/-- The persistentDisk sub-dict of a volume. -/
structure PersistentDisk where
  pdName : String
  pdSize : Option Nat
deriving DecidableEq

/-- One entry of the draft's volumes list. -/
structure Volume where
  name : Option String
  persistentDisk : Option PersistentDisk
deriving DecidableEq

/-- A validated port entry as built by KuberDock._prepare_ports. -/
structure PortSpec where
  isPublic : Bool
  containerPort : Nat
  hostPort : Nat
  protocol : String
deriving DecidableEq

/-- One entry of the draft's containers list.  Keys that the code creates
lazily are Options. -/
structure ContainerSpec where
  image : String
  name : String
  kubes : Option Nat
  ports : Option (List PortSpec)
  env : Option (List EnvVar)
  volumeMounts : Option (List VolumeMount)
deriving DecidableEq

/-- The persisted pod draft: exactly the keys of the valid set projected
by KuberDock._prepare.  The scalar pass-through fields are opaque. -/
structure PodDraft where
  name : String
  containers : List ContainerSpec
  volumes : List Volume
  service : Option String
  replicas : Option Nat
  kube_type : Option String
  restartPolicy : Option String
  public_ip : Option String
deriving DecidableEq

/-- The per-invocation CLI intent: attributes that may or may not be set
on the KuberDock object (hasattr becomes Option.isSome). -/
structure Intent where
  image : Option String
  container_port : Option String
  env : Option String
  delete_env : Option String
  persistent_drive : Option String
  mount_path : Option String
  size : Option Nat
deriving DecidableEq

/-- An invocation that carries no pending mutation intent. -/
def emptyIntent : Intent := ⟨none, none, none, none, none, none, none⟩

/-- A persistent drive record as returned by the drive listing. -/
structure Drive where
  name : String
deriving DecidableEq

/-! ## Env add/update/delete (KuberDock._add_or_update_env, _delete_env) -/

/-- One comma-separated env token: kept when the raw token has exactly one
colon (split length 2); name and value come from the stripped token. -/
def parseEnvItem (item : String) : Option EnvVar :=
  if (pySplit item ':').length = 2 then
    match pySplit (pyStrip item) ':' with
    | [n, v] => some ⟨n, v⟩
    | _ => none
  else none

/-- data_to_add of _add_or_update_env: the whole env string is stripped,
split on commas, and malformed tokens are silently skipped. -/
def parseEnvTokens (envStr : String) : List EnvVar :=
  (pySplit (pyStrip envStr) ',').filterMap parseEnvItem

/-- The inner double loop of _add_or_update_env: an existing entry takes the
value of the first token with the same name (the loop breaks at the first
match) and is otherwise unchanged. -/
def updEnvEntry (data_to_add : List EnvVar) (i : EnvVar) : EnvVar :=
  match data_to_add.find? (fun j => j.name = i.name) with
  | some j => { i with value := j.value }
  | none => i

/-- Membership test against the existing set of env names computed at entry
of _add_or_update_env (negated: the token's name was absent). -/
def absentFrom (env : List EnvVar) (x : EnvVar) : Bool :=
  !((env.map (fun i => i.name)).contains x.name)

/-- KuberDock._add_or_update_env: each existing entry whose name matches a
token is updated in place with the first matching token's value; tokens
whose name was not already present are appended. -/
def add_or_update_env (env : List EnvVar) (envStr : String) : List EnvVar :=
  env.map (updEnvEntry (parseEnvTokens envStr)) ++
    (parseEnvTokens envStr).filter (absentFrom env)

/-- KuberDock._delete_env: drop entries whose name is in the raw
comma-separated delete list. -/
def delete_env (env : List EnvVar) (deleteStr : String) : List EnvVar :=
  env.filter (fun i => !((pySplit deleteStr ',').contains i.name))

/-! ## Port parsing (KuberDock._prepare_ports) -/

/-- Error shown for any bad port token (abbreviated text). -/
def portFormatError : String := "Wrong port format"

def errSpecifyImageOption : String :=
  "You must specify an image with option -C or --container"

/-- The optional leading plus group: the public flag and the rest. -/
def portTokenPub (cs : List Char) : Bool × List Char :=
  match cs with
  | '+' :: rest => (true, rest)
  | _ => (false, cs)

/-- One optional colon separator of the port regex. -/
def dropColon (cs : List Char) : List Char :=
  match cs with
  | ':' :: rest => rest
  | _ => cs

/-- The optional anchored protocol group: none when the tail cannot finish
the match, some none when the group is absent, some (some p) otherwise. -/
def portProtoGroup (cs : List Char) : Option (Option String) :=
  if cs = [] then some none
  else if cs = "tcp".data then some (some "tcp")
  else if cs = "udp".data then some (some "udp")
  else none

/-- The range and protocol checks of _prepare_ports on a matched token. -/
def checkedPort (pub : Bool) (cp hp : Nat) (protocol : String) :
    Option PortSpec :=
  if cp < 1 ∨ cp ≥ 65536 ∨ hp < 1 ∨ hp ≥ 65536 ∨
      (protocol ≠ "tcp" ∧ protocol ≠ "udp") then none
  else some ⟨pub, cp, hp, protocol⟩

/-- One comma-separated port token, per the regex of _prepare_ports
(an optional plus, a digit run, an optional colon, an optional digit run,
an optional colon, an optional tcp or udp, end of string; both separators
are independently optional), followed by the range and protocol checks.
Greedy matching of the anchored regex is deterministic here, so the parse
is written as maximal-munch. -/
def parse_port_token (tok : String) : Option PortSpec :=
  let pub := (portTokenPub tok.data).1
  let cs1 := (portTokenPub tok.data).2
  let ds := cs1.takeWhile Char.isDigit
  let cs2 := cs1.dropWhile Char.isDigit
  if ds.isEmpty then none
  else
    let cs3 := dropColon cs2
    let hs := cs3.takeWhile Char.isDigit
    let cs4 := cs3.dropWhile Char.isDigit
    match portProtoGroup (dropColon cs4) with
    | none => none
    | some pg =>
      checkedPort pub (digitsToNat ds)
        (if hs.isEmpty then digitsToNat ds else digitsToNat hs)
        (pg.getD "tcp")

/-- All tokens of the container_port option string; the first failing token
makes the whole parse fail (the code raises SystemExit there). -/
def parse_ports : List String → Option (List PortSpec)
  | [] => some []
  | t :: ts =>
    match parse_port_token t with
    | none => none
    | some p =>
      match parse_ports ts with
      | none => none
      | some ps => some (p :: ps)

/-- KuberDock._prepare_ports on the draft's containers: no-op without the
container_port option, usage error without the image option, otherwise the
parsed list replaces the ports of every container with the selected image;
any bad token aborts the command before any container is touched. -/
def prepare_ports (it : Intent) (cs : List ContainerSpec) :
    Except String (List ContainerSpec) :=
  match it.container_port with
  | none => .ok cs
  | some cpStr =>
    match it.image with
    | none => .error errSpecifyImageOption
    | some img =>
      match parse_ports (pySplit (pyStrip cpStr) ',') with
      | none => .error portFormatError
      | some ports =>
        .ok (cs.map (fun c =>
          if c.image = img then { c with ports := some ports } else c))

/-- Modelled from the spec: the port token grammar as the specification
states it, with the separator colons tied to their optional fields:
an optional plus, the container port digits, optionally a colon followed
by host port digits, optionally a colon followed by tcp or udp. -/
def specPortTail (cs : List Char) : Bool :=
  match cs with
  | [] => true
  | ':' :: rest =>
    let hs := rest.takeWhile Char.isDigit
    let rest' := rest.dropWhile Char.isDigit
    if hs.isEmpty then
      rest = "tcp".data ∨ rest = "udp".data
    else
      match rest' with
      | [] => true
      | ':' :: p => p = "tcp".data ∨ p = "udp".data
      | _ => false
  | _ => false

/-- Modelled from the spec: whether a token is in the spec's port grammar. -/
def specPortGrammar (tok : String) : Bool :=
  let cs := tok.data
  let cs1 := match cs with | '+' :: rest => rest | _ => cs
  let ds := cs1.takeWhile Char.isDigit
  let rest := cs1.dropWhile Char.isDigit
  if ds.isEmpty then false else specPortTail rest

/-! ## Image name generation (KuberDock._generate_image_name) -/

/-- KuberDock._generate_image_name: everything after the first slash (the
whole name when there is no slash) followed by the random sample, which the
caller draws as 10 distinct decimal digits. -/
def generate_image_name (name : String) (randomSample : String) : String :=
  match name.data.findIdx? (fun c => c = '/') with
  | some i => String.mk (name.data.drop (i + 1)) ++ randomSample
  | none => name ++ randomSample

/-- Modelled from the spec: the trailing path segment of an image string. -/
def lastPathSegment (s : String) : String :=
  (pySplit s '/').getLastD s

/-- Remove the 10 trailing suffix characters of a generated name. -/
def stripSuffix10 (s : String) : String :=
  String.mk (s.data.take (s.data.length - 10))

/-! ## Env preparation (KuberDock._prepare_env) -/

/-- KuberDock._prepare_env: no-op without env or delete_env options, usage
error without image, otherwise apply add/update then delete to every
container with the selected image, creating its env list if missing. -/
def prepare_env (it : Intent) (cs : List ContainerSpec) :
    Except String (List ContainerSpec) :=
  if it.env = none ∧ it.delete_env = none then .ok cs
  else
    match it.image with
    | none => .error errSpecifyImageOption
    | some img =>
      .ok (cs.map (fun c =>
        if c.image = img then
          let e0 := c.env.getD []
          let e1 := match it.env with
            | some s => add_or_update_env e0 s
            | none => e0
          let e2 := match it.delete_env with
            | some s => delete_env e1 s
            | none => e1
          { c with env := some e2 }
        else c))

/-! ## Image selection (KuberDock._get_image) -/

/-- One port dict of the pulled image metadata. -/
structure PulledPort where
  number : Nat
  protocol : String
deriving DecidableEq

/-- The pulled image metadata used by _get_image: mount paths and ports;
either key may be missing from the response. -/
structure Pulled where
  volumeMounts : Option (List String)
  ports : Option (List PulledPort)
deriving DecidableEq

/-- The container dict built by _get_image for a new image: stable name from
the image, seeded volumeMounts/ports from the pulled metadata (ports all
non-public with host port equal to container port).  A failed metadata
fetch (the except branch) degrades to an empty seed. -/
def newImageSpec (image : String) (pulledResult : Option Pulled)
    (randomSample : String) : ContainerSpec :=
  let pulled := pulledResult.getD ⟨none, none⟩
  { image := image
    name := generate_image_name image randomSample
    kubes := none
    ports := pulled.ports.map (fun l =>
      l.map (fun x => ⟨false, x.number, x.number, x.protocol⟩))
    env := none
    volumeMounts := pulled.volumeMounts.map (fun l =>
      l.map (fun p => ⟨some p, none⟩)) }

/-- KuberDock._get_image: return the first already-configured container with
the selected image, otherwise append a freshly seeded one. -/
def get_image (cs : List ContainerSpec) (image : String)
    (pulledResult : Option Pulled) (randomSample : String) :
    List ContainerSpec × ContainerSpec :=
  match cs.find? (fun c => c.image = image) with
  | some c => (cs, c)
  | none =>
    let n := newImageSpec image pulledResult randomSample
    (cs ++ [n], n)

/-! ## Volume preparation (KuberDock._prepare_volumes) -/

def errMountPathExpected : String := "mount-path option is expected"

def errMountPathChars : String :=
  "mount-path should contain letters of Latin alphabet or allowed symbols"

def errMountPathLen : String := "mount-path maximum length is 30 symbols"

def errDriveNotFound : String :=
  "Drive not found. To set a new drive option size is expected"

/-- One character of the mount path regex class: word characters (ASCII
letters, digits, underscore), slash, dot, dash. -/
def mountPathCharOk (c : Char) : Bool :=
  (('a' ≤ c ∧ c ≤ 'z') ∨ ('A' ≤ c ∧ c ≤ 'Z') ∨ ('0' ≤ c ∧ c ≤ '9') ∨
    c = '_' ∨ c = '/' ∨ c = '.' ∨ c = '-')

/-- The anchored character-class regex check on the mount path. -/
def mountPathOk (mp : String) : Bool := mp.data.all mountPathCharOk

/-- The volume name seed: mount path with leading slashes stripped, inner
slashes replaced by dashes, lower-cased. -/
def sanitizeMountPath (mp : String) : String :=
  String.mk (((mp.data.dropWhile (fun c => c = '/')).map
    (fun c => if c = '/' then '-' else c)).map Char.toLower)

/-- Replace the first volumeMounts entry with the given mount path (the
list element the code mutates in place). -/
def replaceFirstMount (mp : String) (e : VolumeMount) :
    List VolumeMount → List VolumeMount
  | [] => []
  | m :: rest =>
    if m.mountPath = some mp then e :: rest
    else m :: replaceFirstMount mp e rest

/-- Set persistentDisk on the first volume with the given name (the volume
the code mutates in place). -/
def replaceFirstVol (n : Option String) (pdisk : PersistentDisk) :
    List Volume → List Volume
  | [] => []
  | v :: rest =>
    if v.name = n then { v with persistentDisk := some pdisk } :: rest
    else v :: replaceFirstVol n pdisk rest

/-- The body of the _prepare_volumes loop for one container.  Returns the
updated container, the updated volumes list and the remaining random-sample
supply (a sample is consumed only when a volume name is generated). -/
def prepare_volumes_step (it : Intent) (drives : List Drive) (final : Bool)
    (c : ContainerSpec) (vols : List Volume) (samples : List String) :
    Except String (ContainerSpec × List Volume × List String) :=
  match c.volumeMounts with
  | none => .ok ({ c with volumeMounts := some [] }, vols, samples)
  | some ms0 =>
    if final then
      .ok ({ c with volumeMounts := some (ms0.filter (fun v =>
        truthyStr v.mountPath && truthyStr v.name)) }, vols, samples)
    else
      let ms := ms0.filter (fun v => truthyStr v.mountPath)
      match it.persistent_drive with
      | none => .ok ({ c with volumeMounts := some ms }, vols, samples)
      | some pd =>
        if it.image ≠ some c.image then
          .ok ({ c with volumeMounts := some ms }, vols, samples)
        else
          match it.mount_path with
          | none => .error errMountPathExpected
          | some mp =>
            if ¬ mountPathOk mp then .error errMountPathChars
            else if mp.data.length > 30 then .error errMountPathLen
            else
              let curr := drives.filter (fun d => d.name = pd)
              if curr = [] ∧ it.size = none then .error errDriveNotFound
              else
                let found := ms.find? (fun i => i.mountPath = some mp)
                let entry := found.getD ⟨some mp, none⟩
                let (entry', samples') :=
                  if truthyStr entry.name then (entry, samples)
                  else ({ entry with name := some (generate_image_name
                    (sanitizeMountPath mp) (samples.headD "")) },
                    samples.tail)
                let ms' :=
                  match found with
                  | some _ => replaceFirstMount mp entry' ms
                  | none => ms ++ [entry']
                let pdisk : PersistentDisk := ⟨pd, it.size⟩
                let vols' :=
                  match vols.find? (fun v => v.name = entry'.name) with
                  | some _ => replaceFirstVol entry'.name pdisk vols
                  | none => vols ++ [⟨entry'.name, some pdisk⟩]
                .ok ({ c with volumeMounts := some ms' }, vols', samples')

/-- KuberDock._prepare_volumes: the loop over the draft's containers,
threading the volumes list; a SystemExit aborts the whole command. -/
def prepare_volumes (it : Intent) (drives : List Drive) (final : Bool) :
    List ContainerSpec → List Volume → List String →
    Except String (List ContainerSpec × List Volume)
  | [], vols, _ => .ok ([], vols)
  | c :: cs, vols, samples =>
    match prepare_volumes_step it drives final c vols samples with
    | .error e => .error e
    | .ok (c', vols', samples') =>
      match prepare_volumes it drives final cs vols' samples' with
      | .error e => .error e
      | .ok (cs', vols'') => .ok (c' :: cs', vols'')

/-! ## Draft preparation (KuberDock._prepare) -/

/-- KuberDock._prepare: run volume, port and env preparation, then project
the valid key set (which is exactly the PodDraft record). -/
def prepare (d : PodDraft) (it : Intent) (drives : List Drive)
    (samples : List String) (final : Bool) : Except String PodDraft :=
  match prepare_volumes it drives final d.containers d.volumes samples with
  | .error e => .error e
  | .ok (cs1, vols) =>
    match prepare_ports it cs1 with
    | .error e => .error e
    | .ok cs2 =>
      match prepare_env it cs2 with
      | .error e => .error e
      | .ok cs3 => .ok { d with containers := cs3, volumes := vols }

/-! ## Filename encoding (base64) and the draft store

Pod names are Python 2 byte strings, modelled as lists of byte values.
_resolve_data_path builds the filename with base64.urlsafe_b64encode plus
the fixed .kube extension; list() recovers names with base64.b64decode,
the STANDARD-alphabet decoder, whose Python implementation silently
discards characters outside the standard alphabet. -/

/-- The standard base64 alphabet. -/
def b64Alphabet : List Char :=
  "ABCDEFGHIJKLMNOPQRSTUVWXYZabcdefghijklmnopqrstuvwxyz0123456789+/".data

/-- Character for a 6-bit value in the standard alphabet. -/
def b64Char (n : Nat) : Char := b64Alphabet.getD n '?'

/-- Standard base64 encoding of a byte list, with padding. -/
def b64encodeGroups : List Nat → List Char
  | [] => []
  | [b1] => [b64Char (b1 / 4), b64Char (b1 % 4 * 16), '=', '=']
  | [b1, b2] =>
    [b64Char (b1 / 4), b64Char (b1 % 4 * 16 + b2 / 16),
     b64Char (b2 % 16 * 4), '=']
  | b1 :: b2 :: b3 :: rest =>
    b64Char (b1 / 4) :: b64Char (b1 % 4 * 16 + b2 / 16) ::
    b64Char (b2 % 16 * 4 + b3 / 64) :: b64Char (b3 % 64) ::
    b64encodeGroups rest

/-- base64.urlsafe_b64encode: standard encoding with plus and slash
replaced by dash and underscore. -/
def urlsafe_b64encode (bs : List Nat) : List Char :=
  (b64encodeGroups bs).map (fun c =>
    if c = '+' then '-' else if c = '/' then '_' else c)

/-- 6-bit value of a STANDARD-alphabet character; none for everything else,
including the urlsafe dash and underscore and the padding sign. -/
def b64Val : Char → Option Nat
  | c =>
    if 'A' ≤ c ∧ c ≤ 'Z' then some (c.toNat - 65)
    else if 'a' ≤ c ∧ c ≤ 'z' then some (c.toNat - 97 + 26)
    else if '0' ≤ c ∧ c ≤ '9' then some (c.toNat - 48 + 52)
    else if c = '+' then some 62
    else if c = '/' then some 63
    else none

/-- Reassemble bytes from 6-bit values (full quads give three bytes, a
trailing pair or triple gives one or two). -/
def b64decodeVals : List Nat → List Nat
  | a :: b :: c :: d :: rest =>
    (a * 4 + b / 16) :: (b % 16 * 16 + c / 4) :: (c % 4 * 64 + d) ::
      b64decodeVals rest
  | [a, b] => [a * 4 + b / 16]
  | [a, b, c] => [a * 4 + b / 16, b % 16 * 16 + c / 4]
  | _ => []

/-- base64.b64decode as Python's lenient binascii.a2b_base64: characters
outside the standard alphabet (so also the urlsafe dash and underscore)
are discarded before decoding. -/
def b64decode (cs : List Char) : List Nat :=
  b64decodeVals (cs.filterMap b64Val)

/-- KuberDock._resolve_data_path: the stored filename for a pod name. -/
def draftFileName (nameBytes : List Nat) : String :=
  String.mk (urlsafe_b64encode nameBytes) ++ ".kube"

/-- Text before the first occurrence of pat, as Python s[:s.index(pat)];
none when pat does not occur. -/
def takeBeforeFirst (pat : List Char) : List Char → Option (List Char)
  | [] => if pat = [] then some [] else none
  | c :: cs =>
    if pat.isPrefixOf (c :: cs) then some []
    else
      match takeBeforeFirst pat cs with
      | some r => some (c :: r)
      | none => none

/-- The name KuberDock.list recovers from one stored filename: files not
ending in .kube are skipped, the rest are cut at the first occurrence of
.kube and decoded with the standard-alphabet b64decode. -/
def listNameOfFile (f : String) : Option (List Nat) :=
  if (".kube".data).isSuffixOf f.data then
    (takeBeforeFirst (".kube".data) f.data).map b64decode
  else none

/-- Byte values of a pod name given as a Lean string (the Python 2 byte
string of the name). -/
def nameBytes (s : String) : List Nat := s.data.map Char.toNat

/-- The draft store: filename-keyed persisted drafts, newest write first
(a rewrite of the same name shadows the previous file contents). -/
def DraftStore := List (String × PodDraft)

/-- KuberDock._save with serialization modelled as the identity on the
prepared draft document: _prepare runs with the invocation's intent and
its result is written under the encoded filename. -/
def save_draft (store : DraftStore) (d : PodDraft) (it : Intent)
    (drives : List Drive) (samples : List String) :
    Except String DraftStore :=
  match prepare d it drives samples false with
  | .error e => .error e
  | .ok doc => .ok ((draftFileName (nameBytes d.name), doc) :: store)

/-- KuberDock._load, content level: look the encoded filename up in the
store (deserialization modelled as the identity). -/
def load_draft (store : DraftStore) (name : String) : Option PodDraft :=
  (store.find? (fun kv => kv.1 = draftFileName (nameBytes name))).map
    (fun kv => kv.2)

/-- Saving with no pending intent and loading back under the same name. -/
def loadAfterSave (store : DraftStore) (d : PodDraft) : Option PodDraft :=
  match save_draft store d emptyIntent [] [] with
  | .ok store' => load_draft store' d.name
  | .error _ => none

/-- Normal form for the round-trip: every container's volumeMounts key is
present and every mount has a present, non-empty mountPath. -/
def draftNormal (d : PodDraft) : Bool :=
  d.containers.all (fun c =>
    match c.volumeMounts with
    | some ms => ms.all (fun m => truthyStr m.mountPath)
    | none => false)

/-! ## Load failure handling (KuberDock._load, exception level)

What _load does for each possible state of the draft file.  The code
catches IOError, ValueError and TypeError around open, json.load and the
setattr loop; a file holding valid JSON that is not an object reaches
.items() on a non-dict and raises an uncaught AttributeError. -/

/-- A JSON document as json.load returns it. -/
inductive Json where
  | null : Json
  | bool : Bool → Json
  | num : Int → Json
  | str : String → Json
  | arr : List Json → Json
  | obj : List (String × Json) → Json

/-- Whether a JSON document is an object (a Python dict). -/
def Json.isObj : Json → Bool
  | .obj _ => true
  | _ => false

/-- The possible states of the draft file when _load runs. -/
inductive FileContent where
  | missing : FileContent
  | unreadable : FileContent
  | notJson : FileContent
  | jsonVal : Json → FileContent

/-- What a load attempt results in. -/
inductive LoadOutcome where
  | absent : LoadOutcome
  | loaded : List (String × Json) → LoadOutcome
  | pythonError : String → LoadOutcome

/-- KuberDock._load, exception level: a missing or unreadable file raises
IOError (caught), junk raises ValueError from json.load (caught), a JSON
object is applied with setattr, and any other JSON value raises
AttributeError at .items(), which the except clause does not list. -/
def kd_load : FileContent → LoadOutcome
  | .missing => .absent
  | .unreadable => .absent
  | .notJson => .absent
  | .jsonVal (.obj kvs) => .loaded kvs
  | .jsonVal _ => .pythonError "AttributeError"

/-! ## Egress reconciliation (KubeCtl.postprocess) -/

/-- One pod of the remote pod listing. -/
structure PodInfo where
  name : String
  podIP : Option String
deriving DecidableEq

/-- One rule line of iptables -t nat -L OUTPUT -n --line-numbers, split
into whitespace-separated fields: the destination column and the trailing
options text (the seventh field), with the line number given by the rule's
position in the chain. -/
structure NatRule where
  dest : String
  opts : String
deriving DecidableEq

/-- Drop an expected literal from the front. -/
def stripLit : List Char → List Char → Option (List Char)
  | [], cs => some cs
  | _ :: _, [] => none
  | l :: ls, c :: cs => if c = l then stripLit ls cs else none

/-- Drop one expected whitespace character (the regex token for one
whitespace). -/
def stripWs : List Char → Option (List Char)
  | [] => none
  | c :: cs => if c.isWhitespace then some cs else none

/-- The anchored-prefix regex of postprocess on a rule's options text:
an exclamation mark, whitespace, owner, whitespace, UID, whitespace,
match, whitespace, then the captured digit run. -/
def parseOwnerUid (s : String) : Option String :=
  match stripLit ['!'] s.data with
  | none => none
  | some r1 =>
    match stripWs r1 with
    | none => none
    | some r2 =>
      match stripLit "owner".data r2 with
      | none => none
      | some r3 =>
        match stripWs r3 with
        | none => none
        | some r4 =>
          match stripLit "UID".data r4 with
          | none => none
          | some r5 =>
            match stripWs r5 with
            | none => none
            | some r6 =>
              match stripLit "match".data r6 with
              | none => none
              | some r7 =>
                match stripWs r7 with
                | none => none
                | some r8 =>
                  let ds := r8.takeWhile Char.isDigit
                  if ds.isEmpty then none else some (String.mk ds)

/-- Whether the inactive branch deletes this rule: its options match the
owner-uid pattern with the invoking uid and its destination is not an
active pod IP. -/
def ruleDoomed (uid : String) (ips : List String) (r : NatRule) : Bool :=
  match parseOwnerUid r.opts with
  | some u => u = uid && !(ips.contains r.dest)
  | none => false

/-- The per-rule failure message echoed when iptables -D fails. -/
def deleteFailMsg (uid : String) (r : NatRule) : String :=
  "Could not delete rule for uid " ++ uid ++ " (" ++ r.dest ++ ")"

/-- The deletion loop of the inactive branch over the reversed
line-numbered listing: a doomed rule is deleted by its recorded 1-based
line number (a failing delete, decided by the fails oracle, is reported
and skipped), everything else is left alone. -/
def processRules (uid : String) (ips : List String)
    (fails : NatRule → Bool) :
    List (Nat × NatRule) → List NatRule → List NatRule × List String
  | [], chain => (chain, [])
  | (pos, r) :: rest, chain =>
    if ruleDoomed uid ips r then
      if fails r then
        let res := processRules uid ips fails rest chain
        (res.1, deleteFailMsg uid r :: res.2)
      else processRules uid ips fails rest (chain.eraseIdx (pos - 1))
    else processRules uid ips fails rest chain

/-- The inactive branch of postprocess: enumerate the chain with its
1-based line numbers and walk the listing backwards. -/
def postprocess_inactive (uid : String) (ips : List String)
    (fails : NatRule → Bool) (chain : List NatRule) :
    List NatRule × List String :=
  processRules uid ips fails (List.enumFrom 1 chain).reverse chain

/-- The exemption rule checked and inserted by the active branch. -/
def exemptRule (uid ip : String) : NatRule :=
  ⟨ip, "! owner UID match " ++ uid⟩

/-- KubeCtl.postprocess: with the named pod present, check-then-insert its
exemption rule (a missing podIP is a no-op exit); with the pod absent,
delete the owner's stale rules, walking the listing backwards. -/
def postprocess (pods : List PodInfo) (name uid : String)
    (fails : NatRule → Bool) (chain : List NatRule) :
    List NatRule × List String :=
  match (pods.filter (fun p => p.name = name)).head? with
  | some pod =>
    match pod.podIP with
    | none => (chain, [])
    | some ip =>
      if chain.contains (exemptRule uid ip) then (chain, [])
      else (exemptRule uid ip :: chain, [])
  | none => postprocess_inactive uid (pods.filterMap (fun p => p.podIP)) fails chain

/-- The rules the inactive branch keeps: not owner-doomed, or rules whose
delete fails. -/
def ruleKept (uid : String) (ips : List String) (fails : NatRule → Bool)
    (r : NatRule) : Bool :=
  !(ruleDoomed uid ips r && !(fails r))

/-- The rules whose failed deletion the inactive branch reports. -/
def ruleReported (uid : String) (ips : List String) (fails : NatRule → Bool)
    (r : NatRule) : Bool :=
  ruleDoomed uid ips r && fails r

/-! # Theorems -/

/-! ## Env merging: helper lemmas -/

theorem updEnvEntry_name (A : List EnvVar) (i : EnvVar) :
    (updEnvEntry A i).name = i.name := by
  unfold updEnvEntry
  cases A.find? (fun j => j.name = i.name) <;> rfl

theorem updEnvEntry_idem (A : List EnvVar) (i : EnvVar) :
    updEnvEntry A (updEnvEntry A i) = updEnvEntry A i := by
  cases hfind : A.find? (fun j => j.name = i.name) with
  | none =>
    have h1 : updEnvEntry A i = i := by simp [updEnvEntry, hfind]
    rw [h1, updEnvEntry, hfind]
  | some j =>
    have h1 : updEnvEntry A i = { i with value := j.value } := by
      simp [updEnvEntry, hfind]
    rw [h1, updEnvEntry]
    have h2 : A.find? (fun k => k.name = EnvVar.name { i with value := j.value })
        = some j := hfind
    rw [h2]

theorem absentFrom_congr (env : List EnvVar) (x y : EnvVar)
    (h : x.name = y.name) : absentFrom env x = absentFrom env y := by
  simp [absentFrom, h]

theorem updEnvEntry_fixed_on_unique (A : List EnvVar) (P : EnvVar → Bool)
    (hP : ∀ x y, x.name = y.name → P x = P y)
    (h : ((A.filter P).map (fun x => x.name)).Nodup) :
    ∀ x ∈ A.filter P, updEnvEntry A x = x := by
  intro x hx
  have hxA : x ∈ A := List.mem_of_mem_filter hx
  have hxP : P x = true := List.of_mem_filter hx
  have hfs : (A.find? (fun j => j.name = x.name)).isSome :=
    List.find?_isSome.mpr ⟨x, hxA, by simp⟩
  obtain ⟨j, hj⟩ := Option.isSome_iff_exists.mp hfs
  have hjA : j ∈ A := List.mem_of_find?_eq_some hj
  have hjname : j.name = x.name := by simpa using List.find?_some hj
  have hjF : j ∈ A.filter P :=
    List.mem_filter.mpr ⟨hjA, by rw [hP j x hjname]; exact hxP⟩
  have hjx : j = x := List.inj_on_of_nodup_map h hjF hx hjname
  rw [updEnvEntry, hj, hjx]

theorem add_or_update_env_names (env : List EnvVar) (s : String) :
    (add_or_update_env env s).map (fun i => i.name) =
      env.map (fun i => i.name) ++
        ((parseEnvTokens s).filter (absentFrom env)).map (fun i => i.name) := by
  unfold add_or_update_env
  rw [List.map_append, List.map_map]
  congr 1
  exact List.map_congr_left (fun i _ => updEnvEntry_name (parseEnvTokens s) i)

/-! ## C5: env add idempotence -/

/-- C5 counterexample: the claim fails as stated.  A list that names the
same previously-absent name twice is not idempotent: one application of
A:1,A:2 to an empty env appends both tokens, a second application rewrites
both entries with the first token's value. -/
theorem env_add_idempotent_counterexample :
    add_or_update_env (add_or_update_env [] "A:1,A:2") "A:1,A:2" ≠
      add_or_update_env [] "A:1,A:2" := by decide

/-- C5 (amended): applying the same env add twice equals applying it once,
provided no name absent from the container's env occurs twice among the
list's valid tokens. -/
theorem env_add_idempotent (env : List EnvVar) (s : String)
    (h : (((parseEnvTokens s).filter (absentFrom env)).map
      (fun x => x.name)).Nodup) :
    add_or_update_env (add_or_update_env env s) s = add_or_update_env env s := by
  have hfix := updEnvEntry_fixed_on_unique (parseEnvTokens s) (absentFrom env)
    (absentFrom_congr env) h
  have hnames := add_or_update_env_names env s
  have hfilter : (parseEnvTokens s).filter (absentFrom (add_or_update_env env s))
      = [] := by
    rw [List.filter_eq_nil_iff]
    intro x hxA
    have hmem : x.name ∈ (add_or_update_env env s).map (fun i => i.name) := by
      rw [hnames]
      by_cases hc : x.name ∈ env.map (fun i => i.name)
      · exact List.mem_append_left _ hc
      · refine List.mem_append_right _ (List.mem_map.mpr ⟨x, ?_, rfl⟩)
        refine List.mem_filter.mpr ⟨hxA, ?_⟩
        simp only [absentFrom, Bool.not_eq_true']
        exact (Bool.not_eq_true _).mp (fun hk => hc (List.elem_iff.mp hk))
    simp only [absentFrom, Bool.not_eq_true, Bool.not_eq_true']
    intro hfalse
    have hT : ((add_or_update_env env s).map (fun i => i.name)).contains x.name
        = true := List.elem_iff.mpr hmem
    rw [hT] at hfalse
    cases hfalse
  have hupd : (add_or_update_env env s).map (updEnvEntry (parseEnvTokens s))
      = add_or_update_env env s := by
    conv_lhs => rw [add_or_update_env]
    conv_rhs => rw [add_or_update_env]
    rw [List.map_append, List.map_map]
    congr 1
    · exact List.map_congr_left (fun i _ => updEnvEntry_idem (parseEnvTokens s) i)
    · rw [List.map_congr_left hfix]
      simp
  show (add_or_update_env env s).map (updEnvEntry (parseEnvTokens s)) ++
      (parseEnvTokens s).filter (absentFrom (add_or_update_env env s)) = _
  rw [hupd, hfilter, List.append_nil]

/-- Witness for C5 at a concrete input. -/
theorem env_add_idempotent_witness :
    add_or_update_env (add_or_update_env [⟨"A", "9"⟩] "A:1,B:2") "A:1,B:2" =
      add_or_update_env [⟨"A", "9"⟩] "A:1,B:2" :=
  env_add_idempotent [⟨"A", "9"⟩] "A:1,B:2" (by decide)

/-! ## C6: uniqueness of env names -/

/-- C6 counterexample: the claim fails as stated.  A list that names the
same previously-absent name twice breaks uniqueness: applying B:1,B:2 to
an empty env yields two entries named B. -/
theorem env_names_unique_counterexample :
    ¬ ((add_or_update_env [] "B:1,B:2").map (fun i => i.name)).Nodup := by
  decide

/-- C6 (amended): env names stay unique under add/update provided no
previously-absent name occurs twice among the list's valid tokens. -/
theorem env_names_unique (env : List EnvVar) (s : String)
    (h1 : (env.map (fun i => i.name)).Nodup)
    (h2 : (((parseEnvTokens s).filter (absentFrom env)).map
      (fun x => x.name)).Nodup) :
    ((add_or_update_env env s).map (fun i => i.name)).Nodup := by
  rw [add_or_update_env_names]
  refine List.Nodup.append h1 h2 ?_
  intro a ha hb
  obtain ⟨x, hx, hxa⟩ := List.mem_map.mp hb
  have habs := List.of_mem_filter hx
  simp only [absentFrom, Bool.not_eq_true'] at habs
  rw [← hxa] at ha
  have hc : (env.map (fun i => i.name)).contains x.name = true :=
    List.elem_iff.mpr ha
  rw [hc] at habs
  cases habs

/-- Witness for C6 at a concrete input. -/
theorem env_names_unique_witness :
    ((add_or_update_env [⟨"A", "9"⟩] "B:2,C:3").map (fun i => i.name)).Nodup :=
  env_names_unique [⟨"A", "9"⟩] "B:2,C:3" (by decide) (by decide)

/-! ## C1: port parsing -/

theorem checkedPort_range (pub : Bool) (cp hp : Nat) (protocol : String)
    (e : PortSpec) (h : checkedPort pub cp hp protocol = some e) :
    1 ≤ e.containerPort ∧ e.containerPort < 65536 ∧
    1 ≤ e.hostPort ∧ e.hostPort < 65536 ∧
    (e.protocol = "tcp" ∨ e.protocol = "udp") := by
  unfold checkedPort at h
  split at h
  · cases h
  · rename_i hrange
    push_neg at hrange
    obtain ⟨h1, h2, h3, h4, h5⟩ := hrange
    cases h
    refine ⟨h1, h2, h3, h4, ?_⟩
    by_cases htcp : protocol = "tcp"
    · exact Or.inl htcp
    · exact Or.inr (h5 htcp)

theorem parse_ports_mem_none (toks : List String) (tok : String)
    (htok : tok ∈ toks) (hnone : parse_port_token tok = none) :
    parse_ports toks = none := by
  induction toks with
  | nil => cases htok
  | cons hd tl ih =>
    rcases List.mem_cons.mp htok with h | h
    · rw [h] at hnone
      simp [parse_ports, hnone]
    · cases hp : parse_port_token hd <;> simp [parse_ports, hp, ih h]

/-- C1 counterexample: the claim fails as stated.  The token 80tcp is not
in the spec's grammar (no colon before the protocol), yet the code's regex,
whose separators are independently optional, accepts it instead of
aborting. -/
theorem port_grammar_counterexample :
    parse_port_token "80tcp" = some ⟨false, 80, 80, "tcp"⟩ ∧
    specPortGrammar "80tcp" = false := by
  refine ⟨by decide, by decide⟩

/-- C1 (amended): the spec's examples hold; every accepted token yields
ports in the range 1 to 65535 and protocol tcp or udp, with the stated
defaults; and a failing token anywhere in the comma-separated option makes
the whole command abort with the single usage error, before any container
is modified. -/
theorem port_parsing_amended :
    parse_port_token "80:8080:tcp" = some ⟨false, 80, 8080, "tcp"⟩ ∧
    parse_port_token "+443" = some ⟨true, 443, 443, "tcp"⟩ ∧
    parse_port_token "70000" = none ∧
    parse_port_token "80:abc" = none ∧
    (∀ t e, parse_port_token t = some e →
      1 ≤ e.containerPort ∧ e.containerPort < 65536 ∧
      1 ≤ e.hostPort ∧ e.hostPort < 65536 ∧
      (e.protocol = "tcp" ∨ e.protocol = "udp")) ∧
    (∀ (img cpStr : String) (cs : List ContainerSpec) (tok : String),
      tok ∈ pySplit (pyStrip cpStr) ',' → parse_port_token tok = none →
      prepare_ports ⟨some img, some cpStr, none, none, none, none, none⟩ cs =
        .error portFormatError) := by
  refine ⟨by decide, by decide, by decide, by decide, ?_, ?_⟩
  · intro t e h
    unfold parse_port_token at h
    dsimp only at h
    split at h
    · cases h
    · split at h
      · cases h
      · exact checkedPort_range _ _ _ _ _ h
  · intro img cpStr cs tok htok hnone
    have hp := parse_ports_mem_none _ _ htok hnone
    simp [prepare_ports, hp]

/-- Witness for C1 at concrete inputs. -/
theorem port_parsing_amended_witness :
    (1 ≤ 80 ∧ 80 < 65536 ∧ 1 ≤ 8080 ∧ 8080 < 65536 ∧
      ("tcp" = "tcp" ∨ "tcp" = "udp")) ∧
    prepare_ports ⟨some "img", some "80,xx", none, none, none, none, none⟩ [] =
      .error portFormatError :=
  ⟨port_parsing_amended.2.2.2.2.1 "80:8080:tcp" ⟨false, 80, 8080, "tcp"⟩
      (by decide),
   port_parsing_amended.2.2.2.2.2 "img" "80,xx" [] "xx" (by decide) (by decide)⟩

/-! ## C9: generated image names -/

theorem findIdx?_append_pivot {α : Type} (p : α → Bool) (l1 : List α)
    (a : α) (l2 : List α) (h1 : ∀ c ∈ l1, p c = false) (ha : p a = true) :
    (l1 ++ a :: l2).findIdx? p = some l1.length := by
  induction l1 with
  | nil => simp [List.findIdx?_cons, ha]
  | cons c cs ih =>
    have hc : p c = false := h1 c (List.mem_cons_self c cs)
    simp [List.findIdx?_cons, hc,
      ih (fun x hx => h1 x (List.mem_cons_of_mem _ hx))]

theorem findIdx?_eq_none_of_all {α : Type} (p : α → Bool) (l : List α)
    (h : ∀ c ∈ l, p c = false) : l.findIdx? p = none := by
  induction l with
  | nil => rfl
  | cons c cs ih =>
    simp [List.findIdx?_cons, h c (List.mem_cons_self c cs),
      ih (fun x hx => h x (List.mem_cons_of_mem _ hx))]

/-- C9 counterexample: the claim fails as stated.  For the image a/b/c the
generated name minus its 10-digit suffix is b/c (everything after the FIRST
slash), not the trailing path segment c. -/
theorem image_name_counterexample :
    stripSuffix10 (generate_image_name "a/b/c" "0123456789") ≠
      lastPathSegment "a/b/c" := by decide

/-- C9 (amended): a generated name is the substring after the first slash
(the whole image when there is no slash) followed by the random sample, so
the name minus its 10-digit suffix equals the part of the image after the
first slash; this is the trailing path segment only when the image has at
most one slash. -/
theorem image_name_after_first_slash :
    (∀ (pre post : List Char) (sfx : String), (∀ c ∈ pre, c ≠ '/') →
      sfx.data.length = 10 →
      stripSuffix10 (generate_image_name (String.mk (pre ++ '/' :: post)) sfx)
        = String.mk post) ∧
    (∀ (nm sfx : String), (∀ c ∈ nm.data, c ≠ '/') →
      generate_image_name nm sfx = nm ++ sfx) := by
  constructor
  · intro pre post sfx hpre hlen
    have hidx : (pre ++ '/' :: post).findIdx? (fun c => c = '/') =
        some pre.length :=
      findIdx?_append_pivot _ pre '/' post
        (fun c hc => by simp [hpre c hc]) (by simp)
    have hassoc : pre ++ '/' :: post = (pre ++ ['/']) ++ post := by simp
    have hdrop : (pre ++ '/' :: post).drop (pre.length + 1) = post := by
      rw [hassoc]
      have hl : pre.length + 1 = (pre ++ ['/']).length := by simp
      rw [hl, List.drop_left]
    unfold generate_image_name
    rw [show (String.mk (pre ++ '/' :: post)).data = pre ++ '/' :: post from rfl,
      hidx]
    dsimp only
    rw [hdrop]
    unfold stripSuffix10
    rw [show (String.mk post ++ sfx).data = post ++ sfx.data from rfl]
    rw [List.length_append, hlen]
    rw [show post.length + 10 - 10 = post.length from by omega]
    rw [List.take_left]
  · intro nm sfx h
    have hnone : nm.data.findIdx? (fun c => c = '/') = none :=
      findIdx?_eq_none_of_all _ _ (fun c hc => by simp [h c hc])
    unfold generate_image_name
    rw [hnone]

/-- Witness for C9 at a concrete input. -/
theorem image_name_after_first_slash_witness :
    stripSuffix10 (generate_image_name (String.mk (['a'] ++ '/' :: ['b']))
      "0123456789") = String.mk ['b'] :=
  image_name_after_first_slash.1 ['a'] ['b'] "0123456789"
    (by decide) (by decide)

/-! ## C4: container identity by image -/

/-- C4: selecting an existing image returns the containers unchanged,
selecting a new image appends exactly one freshly seeded container, and
uniqueness of images within the draft is preserved. -/
theorem get_image_identity :
    ∀ (cs : List ContainerSpec) (img : String) (pr : Option Pulled)
      (sample : String),
      ((∃ c ∈ cs, c.image = img) → (get_image cs img pr sample).1 = cs) ∧
      ((∀ c ∈ cs, c.image ≠ img) →
        (get_image cs img pr sample).1 = cs ++ [newImageSpec img pr sample]) ∧
      ((cs.map (fun c => c.image)).Nodup →
        ((get_image cs img pr sample).1.map (fun c => c.image)).Nodup) := by
  intro cs img pr sample
  refine ⟨?_, ?_, ?_⟩
  · rintro ⟨c, hc, hcimg⟩
    have hs : (cs.find? (fun c => c.image = img)).isSome :=
      List.find?_isSome.mpr ⟨c, hc, by simp [hcimg]⟩
    obtain ⟨c', hc'⟩ := Option.isSome_iff_exists.mp hs
    simp [get_image, hc']
  · intro h
    have hn : cs.find? (fun c => c.image = img) = none :=
      List.find?_eq_none.mpr (fun x hx => by simp [h x hx])
    simp [get_image, hn]
  · intro hnd
    cases hfind : cs.find? (fun c => c.image = img) with
    | some c => simpa [get_image, hfind] using hnd
    | none =>
      have hall : ∀ x ∈ cs, x.image ≠ img :=
        fun x hx => by simpa using List.find?_eq_none.mp hfind x hx
      rw [show (get_image cs img pr sample).1 =
        cs ++ [newImageSpec img pr sample] from by simp [get_image, hfind]]
      rw [List.map_append]
      refine List.Nodup.append hnd (by simp) ?_
      intro a ha hb
      obtain ⟨x, hx, hxa⟩ := List.mem_map.mp ha
      simp only [List.map_cons, List.map_nil, List.mem_singleton] at hb
      rw [show (newImageSpec img pr sample).image = img from rfl] at hb
      exact hall x hx (by rw [hxa, hb])

/-- Witness for C4 at concrete inputs. -/
theorem get_image_identity_witness :
    (get_image [⟨"a", "n", none, none, none, none⟩] "a" none "123").1 =
      [⟨"a", "n", none, none, none, none⟩] ∧
    (get_image [⟨"a", "n", none, none, none, none⟩] "b" none "123").1 =
      [⟨"a", "n", none, none, none, none⟩] ++ [newImageSpec "b" none "123"] ∧
    ((get_image [⟨"a", "n", none, none, none, none⟩] "b" none "123").1.map
      (fun c => c.image)).Nodup :=
  ⟨(get_image_identity [⟨"a", "n", none, none, none, none⟩] "a" none "123").1
      ⟨⟨"a", "n", none, none, none, none⟩, by decide, rfl⟩,
   (get_image_identity [⟨"a", "n", none, none, none, none⟩] "b" none "123").2.1
      (by decide),
   (get_image_identity [⟨"a", "n", none, none, none, none⟩] "b" none "123").2.2
      (by decide)⟩

/-! ## C10: absent volumeMounts skips the drive branch -/

/-- C10: a container whose volumeMounts key is missing gets it reset to an
empty list and the whole persistent-drive branch is skipped for it, under
any invocation intent: no validation, no drive lookup, no mount or volume
entry, and the step and the whole loop succeed. -/
theorem absent_volume_mounts_skip :
    ∀ (it : Intent) (drives : List Drive) (vols : List Volume)
      (samples : List String) (c : ContainerSpec),
      c.volumeMounts = none →
      prepare_volumes_step it drives false c vols samples =
        .ok ({ c with volumeMounts := some [] }, vols, samples) ∧
      prepare_volumes it drives false [c] vols samples =
        .ok ([{ c with volumeMounts := some [] }], vols) := by
  intro it drives vols samples c h
  have hstep : prepare_volumes_step it drives false c vols samples =
      .ok ({ c with volumeMounts := some [] }, vols, samples) := by
    unfold prepare_volumes_step
    rw [h]
  exact ⟨hstep, by simp [prepare_volumes, hstep]⟩

/-- Witness for C10 at a concrete input. -/
theorem absent_volume_mounts_skip_witness :
    prepare_volumes ⟨some "i", none, none, none, some "pd", some "/data",
        some 4⟩ [] false [⟨"i", "n", none, none, none, none⟩] [] [] =
      .ok ([⟨"i", "n", none, none, none, some []⟩], []) :=
  (absent_volume_mounts_skip ⟨some "i", none, none, none, some "pd",
    some "/data", some 4⟩ [] [] [] ⟨"i", "n", none, none, none, none⟩ rfl).2

/-! ## C7: load failures -/

/-- C7 counterexample: the claim fails as stated.  A stored file holding a
valid JSON array is a malformed stored structure, but _load raises an
uncaught AttributeError at .items() instead of yielding absent. -/
theorem load_failure_counterexample :
    kd_load (.jsonVal (.arr [])) = .pythonError "AttributeError" ∧
    ∀ msg, LoadOutcome.pythonError msg ≠ .absent :=
  ⟨rfl, fun _ h => LoadOutcome.noConfusion h⟩

/-- C7 (amended): a missing or unreadable file and a non-JSON file yield
absent (their exceptions are caught), a JSON object is loaded, but a valid
JSON document that is not an object raises an uncaught AttributeError. -/
theorem load_failure_absent :
    kd_load .missing = .absent ∧ kd_load .unreadable = .absent ∧
    kd_load .notJson = .absent ∧
    (∀ kvs, kd_load (.jsonVal (.obj kvs)) = .loaded kvs) ∧
    (∀ j, j.isObj = false → kd_load (.jsonVal j) = .pythonError "AttributeError") := by
  refine ⟨rfl, rfl, rfl, fun kvs => rfl, fun j hj => ?_⟩
  cases j <;> simp_all [Json.isObj, kd_load]

/-- Witness for C7 at a concrete input. -/
theorem load_failure_absent_witness :
    kd_load (.jsonVal (.str "x")) = .pythonError "AttributeError" :=
  load_failure_absent.2.2.2.2 (.str "x") rfl

/-! ## C8: filename decoding in list() -/

/-- C8: the code is wrong here.  Saving encodes the name with the urlsafe
alphabet but list() decodes with the standard-alphabet b64decode, which
silently discards the dash and underscore; for the three-byte name
251 255 255 the stored filename is -___.kube and list() recovers the empty
name instead of the original. -/
theorem list_decode_mismatch :
    urlsafe_b64encode [251, 255, 255] = "-___".data ∧
    listNameOfFile (draftFileName [251, 255, 255]) = some [] ∧
    listNameOfFile (draftFileName [251, 255, 255]) ≠ some [251, 255, 255] := by
  refine ⟨by decide, by decide, by decide⟩

/-! ## C3: draft round-trip -/

theorem prepare_volumes_noIntent (drives : List Drive) :
    ∀ (cs : List ContainerSpec) (vols : List Volume) (samples : List String),
      cs.all (fun c => match c.volumeMounts with
        | some ms => ms.all (fun m => truthyStr m.mountPath)
        | none => false) = true →
      prepare_volumes emptyIntent drives false cs vols samples =
        .ok (cs, vols) := by
  intro cs
  induction cs with
  | nil => intro vols samples _; rfl
  | cons c cs ih =>
    intro vols samples h
    rw [List.all_cons, Bool.and_eq_true] at h
    obtain ⟨h1, h2⟩ := h
    cases hm : c.volumeMounts with
    | none => rw [hm] at h1; cases h1
    | some ms =>
      rw [hm] at h1
      have hfilter : ms.filter (fun v => truthyStr v.mountPath) = ms :=
        List.filter_eq_self.mpr (fun m hmm => List.all_eq_true.mp h1 m hmm)
      have heta : { c with volumeMounts := some ms } = c := by
        cases c
        simp only [ContainerSpec.mk.injEq] at hm ⊢
        simp [hm]
      have hstep : prepare_volumes_step emptyIntent drives false c vols samples
          = .ok (c, vols, samples) := by
        unfold prepare_volumes_step
        rw [hm]
        simp only [emptyIntent, Bool.false_eq_true, if_false, hfilter, heta]
      simp [prepare_volumes, hstep, ih vols samples h2]

theorem prepare_noIntent (d : PodDraft) (drives : List Drive)
    (samples : List String) (h : draftNormal d = true) :
    prepare d emptyIntent drives samples false = .ok d := by
  unfold prepare
  rw [prepare_volumes_noIntent drives d.containers d.volumes samples h]
  rfl

/-- C3 counterexample: the claim fails as stated.  A draft whose container
has no volumeMounts key is not returned unchanged: save runs _prepare,
which resets the missing key to an empty list, so the loaded draft differs
from the saved one. -/
theorem draft_roundtrip_counterexample :
    loadAfterSave [] ⟨"a", [⟨"img", "img123", none, none, none, none⟩], [],
      none, none, none, none, none⟩ ≠
    some ⟨"a", [⟨"img", "img123", none, none, none, none⟩], [],
      none, none, none, none, none⟩ := by decide

/-- C3 (amended): for every draft in normal form (each container's
volumeMounts list present and every mount path present and non-empty),
saving with no pending intent stores the draft unchanged and loading it
back under the same name returns it. -/
theorem draft_roundtrip_normalized :
    ∀ (store : DraftStore) (d : PodDraft) (drives : List Drive)
      (samples : List String), draftNormal d = true →
      save_draft store d emptyIntent drives samples =
        .ok ((draftFileName (nameBytes d.name), d) :: store) ∧
      loadAfterSave store d = some d := by
  intro store d drives samples h
  have hsave : save_draft store d emptyIntent drives samples =
      .ok ((draftFileName (nameBytes d.name), d) :: store) := by
    unfold save_draft
    rw [prepare_noIntent d drives samples h]
  refine ⟨hsave, ?_⟩
  unfold loadAfterSave
  rw [show save_draft store d emptyIntent [] [] =
    .ok ((draftFileName (nameBytes d.name), d) :: store) from by
      unfold save_draft; rw [prepare_noIntent d [] [] h]]
  dsimp only
  unfold load_draft
  rw [List.find?_cons_of_pos _ (by simp)]
  rfl

/-- Witness for C3 at a concrete input. -/
theorem draft_roundtrip_normalized_witness :
    loadAfterSave [] ⟨"a", [], [], none, none, none, none, none⟩ =
      some ⟨"a", [], [], none, none, none, none, none⟩ :=
  (draft_roundtrip_normalized []
    ⟨"a", [], [], none, none, none, none, none⟩ [] [] (by decide)).2

/-! ## C2: egress reconciliation, inactive branch -/

theorem eraseIdx_at_append {α : Type} (l1 : List α) (a : α) (l2 : List α) :
    (l1 ++ a :: l2).eraseIdx l1.length = l1 ++ l2 := by
  induction l1 with
  | nil => rfl
  | cons x xs ih => simpa using ih

theorem enumFrom_append_singleton {α : Type} :
    ∀ (l : List α) (a : α) (n : Nat),
      List.enumFrom n (l ++ [a]) =
        List.enumFrom n l ++ [(n + l.length, a)] := by
  intro l
  induction l with
  | nil => intro a n; simp [List.enumFrom]
  | cons x xs ih =>
    intro a n
    rw [List.cons_append, List.enumFrom, List.enumFrom, ih, List.length_cons]
    rw [show n + 1 + xs.length = n + (xs.length + 1) from by omega]
    rfl

theorem processRules_spec (uid : String) (ips : List String)
    (fails : NatRule → Bool) :
    ∀ (c p s : List NatRule),
      processRules uid ips fails
          (List.enumFrom (p.length + 1) c).reverse (p ++ (c ++ s)) =
        (p ++ (c.filter (ruleKept uid ips fails) ++ s),
         (c.reverse.filter (ruleReported uid ips fails)).map
           (deleteFailMsg uid)) := by
  intro c
  induction c using List.reverseRecOn with
  | nil => intro p s; simp [processRules]
  | append_singleton c' r ih =>
    intro p s
    rw [enumFrom_append_singleton, List.reverse_append]
    simp only [List.reverse_cons, List.reverse_nil, List.nil_append,
      List.singleton_append]
    rw [processRules]
    by_cases hd : ruleDoomed uid ips r = true
    · by_cases hf : fails r = true
      · rw [if_pos hd, if_pos hf]
        dsimp only
        rw [show p ++ ((c' ++ [r]) ++ s) = p ++ (c' ++ (r :: s)) from by simp]
        rw [ih p (r :: s)]
        have hkeep : ruleKept uid ips fails r = true := by
          simp [ruleKept, hd, hf]
        have hfil : (c' ++ [r]).filter (ruleKept uid ips fails) ++ s =
            c'.filter (ruleKept uid ips fails) ++ (r :: s) := by
          rw [List.filter_append]
          simp [hkeep]
        have hrep : ruleReported uid ips fails r = true := by
          simp [ruleReported, hd, hf]
        have hmsg : ((c' ++ [r]).reverse.filter
              (ruleReported uid ips fails)).map (deleteFailMsg uid) =
            deleteFailMsg uid r :: (c'.reverse.filter
              (ruleReported uid ips fails)).map (deleteFailMsg uid) := by
          rw [List.reverse_append]
          simp [hrep]
        rw [hfil, hmsg]
      · rw [if_pos hd, if_neg hf]
        rw [show p ++ ((c' ++ [r]) ++ s) = (p ++ c') ++ (r :: s) from by simp]
        rw [show p.length + 1 + c'.length - 1 = (p ++ c').length from by
          rw [List.length_append]; omega]
        rw [eraseIdx_at_append (p ++ c') r s]
        rw [show (p ++ c') ++ s = p ++ (c' ++ s) from by simp]
        rw [ih p s]
        have hkeep : ruleKept uid ips fails r = false := by
          simp [ruleKept, hd]
          simpa using hf
        have hfil : (c' ++ [r]).filter (ruleKept uid ips fails) ++ s =
            c'.filter (ruleKept uid ips fails) ++ s := by
          rw [List.filter_append]
          simp [hkeep]
        have hrep : ruleReported uid ips fails r = false := by
          simp only [ruleReported, hd, Bool.true_and]
          simpa using hf
        have hmsg : ((c' ++ [r]).reverse.filter
              (ruleReported uid ips fails)).map (deleteFailMsg uid) =
            (c'.reverse.filter
              (ruleReported uid ips fails)).map (deleteFailMsg uid) := by
          rw [List.reverse_append]
          simp [hrep]
        rw [hfil, hmsg]
    · rw [if_neg hd]
      rw [show p ++ ((c' ++ [r]) ++ s) = p ++ (c' ++ (r :: s)) from by simp]
      rw [ih p (r :: s)]
      have hkeep : ruleKept uid ips fails r = true := by
        simp only [ruleKept, Bool.not_eq_true] at hd ⊢
        simp [hd]
      have hfil : (c' ++ [r]).filter (ruleKept uid ips fails) ++ s =
          c'.filter (ruleKept uid ips fails) ++ (r :: s) := by
        rw [List.filter_append]
        simp [hkeep]
      have hrep : ruleReported uid ips fails r = false := by
        simp only [ruleReported, Bool.not_eq_true] at hd ⊢
        simp [hd]
      have hmsg : ((c' ++ [r]).reverse.filter
            (ruleReported uid ips fails)).map (deleteFailMsg uid) =
          (c'.reverse.filter
            (ruleReported uid ips fails)).map (deleteFailMsg uid) := by
        rw [List.reverse_append]
        simp [hrep]
      rw [hfil, hmsg]

/-- C2: when the named pod is absent from the listing, reconciliation
deletes exactly the rules of the invoking owner uid whose destination is
not an active pod IP (the backward scan keeps the recorded line numbers
valid), a failed deletion is reported for that rule without aborting the
rest, and on the spec's example only the 10.0.0.5 rule is removed. -/
theorem egress_inactive_reconcile :
    (∀ (pods : List PodInfo) (nm uid : String) (fails : NatRule → Bool)
      (chain : List NatRule), (∀ p ∈ pods, p.name ≠ nm) →
      postprocess pods nm uid fails chain =
        (chain.filter
          (ruleKept uid (pods.filterMap (fun p => p.podIP)) fails),
         (chain.reverse.filter
           (ruleReported uid (pods.filterMap (fun p => p.podIP)) fails)).map
           (deleteFailMsg uid))) ∧
    postprocess [⟨"other", some "10.0.0.9"⟩] "mypod" "1000" (fun _ => false)
      [⟨"10.0.0.5", "! owner UID match 1000"⟩,
       ⟨"10.0.0.9", "! owner UID match 1000"⟩] =
    ([⟨"10.0.0.9", "! owner UID match 1000"⟩], []) := by
  constructor
  · intro pods nm uid fails chain h
    have hfil : pods.filter (fun p => p.name = nm) = [] :=
      List.filter_eq_nil_iff.mpr (fun p hp => by simp [h p hp])
    unfold postprocess
    rw [hfil]
    have hmain := processRules_spec uid (pods.filterMap (fun p => p.podIP))
      fails chain [] []
    simp only [List.length_nil, List.nil_append, List.append_nil, Nat.zero_add]
      at hmain
    simpa [postprocess_inactive] using hmain
  · decide

/-- Witness for C2 at a concrete input. -/
theorem egress_inactive_reconcile_witness :
    postprocess [] "p" "0" (fun _ => false)
        [⟨"10.0.0.1", "! owner UID match 7"⟩] =
      ([⟨"10.0.0.1", "! owner UID match 7"⟩], []) := by
  have := egress_inactive_reconcile.1 [] "p" "0" (fun _ => false)
    [⟨"10.0.0.1", "! owner UID match 7"⟩] (by simp)
  rw [this]
  decide
